import Mathlib

/-!
Verification of the retrieval / ingestion engine of the personal-ai-assistant
repository, as a shallow embedding in Lean 4.

Conventions used throughout this development:
* JavaScript numbers that carry fractional values (similarity scores, ranker
  weights) are modelled as `ℚ`; counters and token counts as `Nat`; caller
  supplied integers as `Int`.
* database state is modelled as a Lean list of rows in `created_at` order;
  SQL `WHERE` clauses become decidable predicates over the row type.
* external calls (the Gemini embedding endpoint, base64 decoding) are passed
  in as explicit function arguments ("oracles"), so that every control path of
  the source is a total Lean function of those arguments.
-/

/-! ## 4.H Vector search: input clamping (`vectorSearch.js`, `search`) -/

/-- Models `const safeTopK = Math.min(Math.max(1, parseInt(topK) || 10), 100)` from
`VectorSearchService.search`.  For an integer caller value `t`, `parseInt`
returns `t` and `t || 10` yields the default `10` exactly when `t = 0`. -/
def safeTopK (t : Int) : Int :=
  min (max 1 (if t = 0 then 10 else t)) 100

/-- Models `const safeMinSimilarity = Math.min(Math.max(0, parseFloat(minSimilarity) || 0.5), 1)`
from `VectorSearchService.search`.  `m || 0.5` yields the default exactly when
`m = 0`. -/
def safeMinSimilarity (m : ℚ) : ℚ :=
  min (max 0 (if m = 0 then 1/2 else m)) 1

/-! ## 4.I Result ranker (`resultRanker.js`) -/

/-- The five per-signal sub-scores consumed by `calculateFinalScore`:
the vector similarity plus the four scores built by `calculateScores`. -/
structure RankSubScores where
  vector : ℚ
  recency : ℚ
  keyword : ℚ
  source : ℚ
  length : ℚ
deriving Repr, DecidableEq

/-- The ranker weights set in the `ResultRanker` constructor. -/
def rankerWeights : RankSubScores :=
  { vector := 45/100, recency := 15/100, keyword := 25/100,
    source := 10/100, length := 5/100 }

/-- The weighted sum computed inside `calculateFinalScore` before clamping. -/
def rankDotProduct (s : RankSubScores) : ℚ :=
  s.vector * rankerWeights.vector +
  s.recency * rankerWeights.recency +
  s.keyword * rankerWeights.keyword +
  s.source * rankerWeights.source +
  s.length * rankerWeights.length

/-- Models `ResultRanker.calculateFinalScore`: the weighted sum clamped by
`Math.max(0, Math.min(1, final))`. -/
def calculateFinalScore (s : RankSubScores) : ℚ :=
  max 0 (min 1 (rankDotProduct s))

/-- C5 (corrected): for nonzero caller values the options are clamped into
[1,100] and [0,1]; the value 0 is falsy in JavaScript, so `topK = 0` falls
back to the default 10 (not 1) and `minSimilarity = 0` falls back to the
default 0.5 (not 0). -/
theorem c5_search_option_clamping (t : Int) (m : ℚ) (ht : t ≠ 0) (hm : m ≠ 0) :
    safeTopK t = min (max 1 t) 100 ∧
    safeMinSimilarity m = min (max 0 m) 1 ∧
    safeTopK 0 = 10 ∧ safeMinSimilarity 0 = 1/2 := by
  refine ⟨?_, ?_, ?_, ?_⟩
  · simp [safeTopK, ht]
  · simp [safeMinSimilarity, hm]
  · simp [safeTopK]
  · norm_num [safeMinSimilarity]

/-- Witness for `c5_search_option_clamping` at `topK = 250`, `minSimilarity = 3/4`. -/
theorem c5_search_option_clamping_witness :
    safeTopK 250 = min (max 1 250) 100 ∧
    safeMinSimilarity (3/4) = min (max 0 (3/4 : ℚ)) 1 ∧
    safeTopK 0 = 10 ∧ safeMinSimilarity 0 = 1/2 :=
  c5_search_option_clamping 250 (3/4) (by decide) (by norm_num)

/-- C5 counterexample: the claim "top_k = 0 yields 1 and min_similarity = 0
yields 0" is false — both fall back to their defaults. -/
theorem c5_counterexample :
    safeTopK 0 = 10 ∧ ¬ safeTopK 0 = 1 ∧
    safeMinSimilarity 0 = 1/2 ∧ ¬ safeMinSimilarity 0 = 0 := by
  refine ⟨by simp [safeTopK], by simp [safeTopK], ?_, ?_⟩
  · norm_num [safeMinSimilarity]
  · norm_num [safeMinSimilarity]

/-- C6 (confirmed): whenever every sub-score lies in [0,1], the clamp in
`calculateFinalScore` is the identity, so the final score equals the dot
product of the constructor weights with the sub-scores, and lies in [0,1]. -/
theorem c6_ranker_bounds (s : RankSubScores)
    (hv : 0 ≤ s.vector ∧ s.vector ≤ 1) (hr : 0 ≤ s.recency ∧ s.recency ≤ 1)
    (hk : 0 ≤ s.keyword ∧ s.keyword ≤ 1) (hs : 0 ≤ s.source ∧ s.source ≤ 1)
    (hl : 0 ≤ s.length ∧ s.length ≤ 1) :
    calculateFinalScore s = rankDotProduct s ∧
    0 ≤ calculateFinalScore s ∧ calculateFinalScore s ≤ 1 := by
  obtain ⟨hv0, hv1⟩ := hv
  obtain ⟨hr0, hr1⟩ := hr
  obtain ⟨hk0, hk1⟩ := hk
  obtain ⟨hs0, hs1⟩ := hs
  obtain ⟨hl0, hl1⟩ := hl
  have hdot0 : 0 ≤ rankDotProduct s := by
    unfold rankDotProduct rankerWeights
    positivity
  have hdot1 : rankDotProduct s ≤ 1 := by
    unfold rankDotProduct rankerWeights
    nlinarith
  constructor
  · unfold calculateFinalScore
    rw [min_eq_right hdot1, max_eq_right hdot0]
  · unfold calculateFinalScore
    constructor
    · exact le_max_left 0 _
    · rw [min_eq_right hdot1, max_eq_right hdot0]
      exact hdot1

/-- Witness for `c6_ranker_bounds` at concrete sub-scores. -/
theorem c6_ranker_bounds_witness :
    calculateFinalScore ⟨4/5, 1/2, 1, 1/10, 0⟩ = rankDotProduct ⟨4/5, 1/2, 1, 1/10, 0⟩ ∧
    0 ≤ calculateFinalScore ⟨4/5, 1/2, 1, 1/10, 0⟩ ∧
    calculateFinalScore ⟨4/5, 1/2, 1, 1/10, 0⟩ ≤ 1 :=
  c6_ranker_bounds ⟨4/5, 1/2, 1, 1/10, 0⟩
    ⟨by norm_num, by norm_num⟩ ⟨by norm_num, by norm_num⟩
    ⟨by norm_num, by norm_num⟩ ⟨by norm_num, by norm_num⟩
    ⟨by norm_num, by norm_num⟩

/-! ## Case-sensitive and case-insensitive substring matching

`String.prototype.includes` is case-sensitive substring containment; SQL
`ILIKE '%pat%'` is case-insensitive (modelled over ASCII letters). -/

/-- JavaScript `hay.includes(pat)`: `pat` occurs inside `hay`. -/
def containsSub (hay pat : String) : Bool := decide (pat.data <:+: hay.data)

/-- Lower-case an ASCII letter, as the case folding underlying `ILIKE`. -/
def asciiLowerChar (c : Char) : Char :=
  if 'A' ≤ c ∧ c ≤ 'Z' then Char.ofNat (c.toNat + 32) else c

/-- Lower-case every character of a string. -/
def asciiLower (s : String) : String := String.mk (s.data.map asciiLowerChar)

/-! ## 4.B Embedding provider retry (`embeddingService.js`, `embedTextWithRetry`) -/

/-- The value produced by a successful `embedText` call. -/
structure EmbedResult where
  embedding : List ℚ
  tokens : Nat
deriving Repr, DecidableEq

/-- Models `error.message?.includes("429") || error.message?.includes("quota")`. -/
def isRateLimited (msg : String) : Bool :=
  containsSub msg "429" || containsSub msg "quota"

/-- Whether an `embedText` outcome is a rate-limit error. -/
def isRateLimitedOutcome : Except String EmbedResult → Bool
  | .ok _ => false
  | .error e => isRateLimited e

/-- The `for (attempt = 1; attempt <= maxRetries; attempt++)` loop of
`embedTextWithRetry`.  `oracle a` is the outcome of the `a`-th `embedText`
call; the second component collects the `sleep` delays
`Math.pow(2, attempt) * 1000` in milliseconds.  The fuel argument is kept
equal to `maxRetries - attempt + 1`; the guard `attempt < maxRetries` is the
one in the source, so fuel 0 is never reached from `embedTextWithRetry`. -/
def retryAux (oracle : Nat → Except String EmbedResult) (maxRetries attempt : Nat) :
    Nat → Except String EmbedResult × List Nat
  | 0 => (oracle attempt, [])
  | fuel + 1 =>
    match oracle attempt with
    | .ok v => (.ok v, [])
    | .error e =>
      if isRateLimited e && decide (attempt < maxRetries) then
        let rest := retryAux oracle maxRetries (attempt + 1) fuel
        (rest.1, 2 ^ attempt * 1000 :: rest.2)
      else (.error e, [])

/-- Models `EmbeddingService.embedTextWithRetry(text, maxRetries = 3)`: attempts are
numbered 1, 2, 3. -/
def embedTextWithRetry (oracle : Nat → Except String EmbedResult) :
    Except String EmbedResult × List Nat :=
  retryAux oracle 3 1 3

/-- An embedding endpoint that is rate-limited on every call. -/
def rateLimitOracle : Nat → Except String EmbedResult :=
  fun _ => .error "429 RESOURCE_EXHAUSTED"

/-- C4 counterexample: with every attempt rate-limited, the delays are
2 s and 4 s only and the error then propagates; the claimed third delay of
8 s never occurs (a third rate-limited failure is thrown, not retried). -/
theorem c4_counterexample :
    embedTextWithRetry rateLimitOracle = (.error "429 RESOURCE_EXHAUSTED", [2000, 4000]) ∧
    8000 ∉ (embedTextWithRetry rateLimitOracle).2 := by
  have h : embedTextWithRetry rateLimitOracle =
      (.error "429 RESOURCE_EXHAUSTED", [2000, 4000]) := rfl
  exact ⟨h, by rw [h]; decide⟩

/-- C4 (corrected): for every outcome sequence, the backoff delays are a
prefix of `[2000 ms, 4000 ms]` (so at most 3 attempts and never an 8 s
delay), and when the first call does not fail with a rate-limit error its
outcome — success or error — is returned as is, with no retry and no delay. -/
theorem c4_retry_backoff (oracle : Nat → Except String EmbedResult) :
    (embedTextWithRetry oracle).2 <+: [2000, 4000] ∧
    (isRateLimitedOutcome (oracle 1) = false →
      embedTextWithRetry oracle = (oracle 1, [])) := by
  constructor
  · cases h1 : oracle 1 with
    | ok v => simp [embedTextWithRetry, retryAux, h1]
    | error e =>
      by_cases hrl : isRateLimited e = true
      · cases h2 : oracle 2 with
        | ok v =>
          simp [embedTextWithRetry, retryAux, h1, h2, hrl]
        | error e2 =>
          by_cases hrl2 : isRateLimited e2 = true
          · cases h3 : oracle 3 with
            | ok v =>
              simp [embedTextWithRetry, retryAux, h1, h2, h3, hrl, hrl2]
            | error e3 =>
              simp [embedTextWithRetry, retryAux, h1, h2, h3, hrl, hrl2]
          · simp only [Bool.not_eq_true] at hrl2
            simp [embedTextWithRetry, retryAux, h1, h2, hrl, hrl2]
      · simp only [Bool.not_eq_true] at hrl
        simp [embedTextWithRetry, retryAux, h1, hrl]
  · intro hno
    cases h1 : oracle 1 with
    | ok v => simp [embedTextWithRetry, retryAux, h1]
    | error e =>
      rw [h1] at hno
      simp only [isRateLimitedOutcome] at hno
      simp [embedTextWithRetry, retryAux, h1, hno]

/-- Witness for `c4_retry_backoff`: a non-rate-limit failure propagates
unchanged with no delays. -/
theorem c4_retry_backoff_witness :
    isRateLimitedOutcome ((fun _ => Except.error "boom" :
      Nat → Except String EmbedResult) 1) = false ∧
    embedTextWithRetry (fun _ => Except.error "boom") =
      (Except.error "boom", []) :=
  ⟨by decide, (c4_retry_backoff (fun _ => Except.error "boom")).2 (by decide)⟩

/-! ## 4.H Hybrid search row eligibility (`vectorSearch.js`, `hybridSearch`) -/

/-- A `documents` row as seen by the generated hybrid-search SQL:
`hasEmbedding` is `embedding IS NOT NULL`, `similarity` stands for the SQL
expression `1 - (embedding <=> $1::vector)`. -/
structure HybridRow where
  hasEmbedding : Bool
  similarity : ℚ
  content : String
deriving Repr, DecidableEq

/-- One disjunct `content ILIKE '%kw%'` of the keyword condition. -/
def ilikeContains (hay pat : String) : Bool :=
  containsSub (asciiLower hay) (asciiLower pat)

/-- The keyword condition `(content ILIKE $i OR ...)` built from the
`keywords` array; for an empty array no condition is generated, which
coincides with `any` over the empty list being `false`. -/
def keywordCondition (kws : List String) (content : String) : Bool :=
  kws.any (fun kw => ilikeContains content kw)

/-- The `keyword_boost` column:
`CASE WHEN content ILIKE ... THEN 0.1 ELSE 0 END` (with `FALSE` when no
keywords were supplied). -/
def keywordBoost (kws : List String) (content : String) : ℚ :=
  if keywordCondition kws content then 1/10 else 0

/-- The hybrid-search `WHERE` clause:
`embedding IS NOT NULL AND ((1 - (embedding <=> $1::vector)) >= $minSim
 OR (content ILIKE ... OR ...))`. -/
def hybridWhere (minSim : ℚ) (kws : List String) (row : HybridRow) : Bool :=
  row.hasEmbedding &&
    (decide (row.similarity ≥ minSim) || keywordCondition kws row.content)

/-- C10 (confirmed): the similarity-threshold predicate and the keyword
predicate are OR-ed, so a row whose similarity is below `minSimilarity` is
still eligible whenever its content substring-matches a keyword. -/
theorem c10_hybrid_or_eligibility (minSim : ℚ) (kws : List String) (row : HybridRow)
    (hemb : row.hasEmbedding = true)
    (_hsim : row.similarity < minSim)
    (hkw : keywordCondition kws row.content = true) :
    hybridWhere minSim kws row = true := by
  simp [hybridWhere, hemb, hkw]

/-- Witness for `c10_hybrid_or_eligibility`: similarity 0.1 < threshold 0.4,
but the content matches keyword "budget" case-insensitively. -/
theorem c10_hybrid_or_eligibility_witness :
    (HybridRow.mk true (1/10) "Quarterly Budget review").hasEmbedding = true ∧
    (HybridRow.mk true (1/10) "Quarterly Budget review").similarity < 2/5 ∧
    keywordCondition ["budget"] (HybridRow.mk true (1/10) "Quarterly Budget review").content = true ∧
    hybridWhere (2/5) ["budget"] (HybridRow.mk true (1/10) "Quarterly Budget review") = true := by
  refine ⟨rfl, by norm_num, by decide, ?_⟩
  exact c10_hybrid_or_eligibility (2/5) ["budget"] _ rfl (by norm_num) (by decide)

/-! ## 4.A / 4.E Sync logs and the storing loop
(`syncLogsRepository.js`, `documentRepository.js`, `SyncController.performSync`)

Timestamps are modelled as `Nat` ticks; `NOW()` at the moment of an update is
passed in explicitly. -/

/-- A `sync_logs` row. -/
structure SyncLogRow where
  id : Nat
  status : String
  documentsFetched : Nat
  documentsStored : Nat
  lastSyncTimestamp : Option Nat
  errorMessage : Option String
  syncCompletedAt : Option Nat
deriving Repr, DecidableEq

/-- The `updates` object accepted by `SyncLogRepository.complete`; absent
fields are `none`. -/
structure SyncLogUpdates where
  status : Option String
  documentsFetched : Option Nat
  documentsStored : Option Nat
  lastSyncTimestamp : Option Nat
  error : Option String
deriving Repr, DecidableEq

/-- Models `SyncLogRepository.complete`: an unconditional `UPDATE ... WHERE id = $6`
(no guard on the current status) writing `sync_completed_at = NOW()` and the
defaults `updates.status || 'success'`, `updates.documentsFetched || 0`,
`updates.documentsStored || 0`, `updates.lastSyncTimestamp || null`,
`updates.error || null`. -/
def completeSyncLog (now : Nat) (row : SyncLogRow) (u : SyncLogUpdates) : SyncLogRow :=
  { row with
    syncCompletedAt := some now
    status := u.status.getD "success"
    documentsFetched := u.documentsFetched.getD 0
    documentsStored := u.documentsStored.getD 0
    lastSyncTimestamp := u.lastSyncTimestamp
    errorMessage := u.error }

/-- Models `SyncLogRepository.fail`: delegates to `complete` with
`{status: 'failed', error, documentsFetched: 0, documentsStored: 0}` and no
`lastSyncTimestamp`. -/
def failSyncLog (now : Nat) (row : SyncLogRow) (msg : String) : SyncLogRow :=
  completeSyncLog now row ⟨some "failed", some 0, some 0, none, some msg⟩

/-- A normalized document as handed to the storing loop. -/
structure NormDoc where
  documentId : String
  content : String
deriving Repr, DecidableEq

/-- Running state of the storing loop of `performSync`: the set of
`document_id`s present in `documents` plus the three counters. -/
structure StoreState where
  db : List String
  added : Nat
  skipped : Nat
  failed : Nat
deriving Repr, DecidableEq

/-- Models `DocumentRepository.create` restricted to its `document_id` effect: a
unique violation (Postgres error 23505) is caught and re-thrown as
`Error("Document with ID <id> already exists")` — a plain `Error`, not a
typed duplicate outcome. -/
def createDocument (dbIds : List String) (id : String) : Except String String :=
  if id ∈ dbIds then .error ("Document with ID " ++ id ++ " already exists")
  else .ok id

/-- The storing loop of `SyncController.performSync`: per document, a
`findByDocumentId` pre-check (hit → `documentsSkipped++`), then
`documentRepo.create`; the surrounding `catch` turns any create failure —
including the duplicate error above — into `documentsFailed++` and continues.
`race i` models a concurrent writer inserting the same `document_id` between
the pre-check and the insert of the `i`-th document, which is the only way
the insert itself can hit the unique constraint. -/
def storeLoop (race : Nat → Bool) : List NormDoc → Nat → StoreState → StoreState
  | [], _, st => st
  | d :: rest, i, st =>
    if d.documentId ∈ st.db then
      storeLoop race rest (i + 1) { st with skipped := st.skipped + 1 }
    else
      let dbAtInsert := if race i then d.documentId :: st.db else st.db
      if d.documentId ∈ dbAtInsert then
        storeLoop race rest (i + 1) { st with db := dbAtInsert, failed := st.failed + 1 }
      else
        storeLoop race rest (i + 1)
          { st with db := d.documentId :: dbAtInsert, added := st.added + 1 }

/-- Every document is accounted for in exactly one counter: the storing loop
never aborts the run. -/
theorem storeLoop_counts (race : Nat → Bool) (docs : List NormDoc) :
    ∀ (i : Nat) (st : StoreState),
      (storeLoop race docs i st).added + (storeLoop race docs i st).skipped +
        (storeLoop race docs i st).failed =
      st.added + st.skipped + st.failed + docs.length := by
  induction docs with
  | nil => intro i st; simp [storeLoop]
  | cons d rest ih =>
    intro i st
    by_cases hmem : d.documentId ∈ st.db
    · simp only [storeLoop, if_pos hmem]
      rw [ih]
      simp
      omega
    · by_cases hr : race i = true
      · simp only [storeLoop, if_neg hmem, hr, if_pos (List.mem_cons_self _ _), if_true]
        rw [ih]
        simp
        omega
      · simp only [Bool.not_eq_true] at hr
        simp only [storeLoop, if_neg hmem, hr, Bool.false_eq_true, if_false, if_neg hmem]
        rw [ih]
        simp
        omega

/-- C7 counterexample: a fresh document whose insert hits the unique
constraint (concurrent insert of the same id after the pre-check) is
counted in `failed`, not in `skipped`, and the error carried is a plain
"already exists" `Error`, not a typed duplicate outcome. -/
theorem c7_counterexample :
    (storeLoop (fun _ => true) [⟨"gmail_m1", "hello"⟩] 0 ⟨[], 0, 0, 0⟩).failed = 1 ∧
    (storeLoop (fun _ => true) [⟨"gmail_m1", "hello"⟩] 0 ⟨[], 0, 0, 0⟩).skipped = 0 ∧
    (storeLoop (fun _ => true) [⟨"gmail_m1", "hello"⟩] 0 ⟨[], 0, 0, 0⟩).added = 0 ∧
    createDocument ["gmail_m1"] "gmail_m1" =
      .error "Document with ID gmail_m1 already exists" := by
  refine ⟨by decide, by decide, by decide, rfl⟩

/-- C7 (corrected): an insert-time unique violation does not crash the run —
the document is absorbed by the per-document `catch`, the loop moves on to
the rest, and every document lands in exactly one counter — but it is
counted in `failed`; the `skipped` counter only ever counts documents found
by the `findByDocumentId` pre-check. -/
theorem c7_duplicate_handling (race : Nat → Bool) (d : NormDoc) (rest : List NormDoc)
    (i : Nat) (st : StoreState)
    (hnew : d.documentId ∉ st.db) (hrace : race i = true) :
    storeLoop race (d :: rest) i st =
      storeLoop race rest (i + 1)
        { st with db := d.documentId :: st.db, failed := st.failed + 1 } ∧
    (storeLoop race (d :: rest) i st).added + (storeLoop race (d :: rest) i st).skipped +
      (storeLoop race (d :: rest) i st).failed =
      st.added + st.skipped + st.failed + (d :: rest).length := by
  constructor
  · simp only [storeLoop, if_neg hnew, hrace, if_true, if_pos (List.mem_cons_self _ _)]
  · exact storeLoop_counts race (d :: rest) i st

/-- Witness for `c7_duplicate_handling`: one racing duplicate followed by one
ordinary document. -/
theorem c7_duplicate_handling_witness :
    ("gmail_m1" ∉ ([] : List String)) ∧
    (storeLoop (fun _ => true) [⟨"gmail_m1", "a"⟩, ⟨"gmail_m2", "b"⟩] 0 ⟨[], 0, 0, 0⟩).added +
      (storeLoop (fun _ => true) [⟨"gmail_m1", "a"⟩, ⟨"gmail_m2", "b"⟩] 0 ⟨[], 0, 0, 0⟩).skipped +
      (storeLoop (fun _ => true) [⟨"gmail_m1", "a"⟩, ⟨"gmail_m2", "b"⟩] 0 ⟨[], 0, 0, 0⟩).failed = 2 :=
  ⟨by decide,
   (c7_duplicate_handling (fun _ => true) ⟨"gmail_m1", "a"⟩ [⟨"gmail_m2", "b"⟩] 0
      ⟨[], 0, 0, 0⟩ (by decide) rfl).2⟩

/-- The part of `SyncController.performSync` that follows a successful
storing phase: the SyncLog row is completed to `success` with the final
counts and the cursor `lastSyncTimestamp = now`, and only then is
`processAllPendingEmbeddings` awaited; if the embedding phase throws, the
surrounding `catch` calls `syncLogRepo.fail` on the SAME row.  The first
component is the row as readable right after the success write, the second
the row at the end of the run. -/
def performSyncModel (row0 : SyncLogRow) (fetchedCount : Nat) (store : StoreState)
    (tSuccess tFail : Nat) (embedOutcome : Except String Nat) :
    SyncLogRow × SyncLogRow :=
  let rowSuccess := completeSyncLog tSuccess row0
    ⟨some "success", some fetchedCount, some store.added, some tSuccess, none⟩
  match embedOutcome with
  | .ok _ => (rowSuccess, rowSuccess)
  | .error msg => (rowSuccess, failSyncLog tFail rowSuccess msg)

/-- Concrete sync-log row for the C2 scenario. -/
def c2row0 : SyncLogRow := ⟨1, "in_progress", 0, 0, none, none, none⟩

/-- Concrete store outcome for the C2 scenario: three documents added. -/
def c2store : StoreState := ⟨["gmail_m1", "gmail_m2", "gmail_m3"], 3, 0, 0⟩

/-- C2 counterexample: storage succeeds (row reaches terminal status
`success` with counts 3/3), then the embedding phase throws; the claim says
any later read returns the same row, but `fail` rewrites the very same row
to `failed` with zeroed counts and a nulled cursor. -/
theorem c2_counterexample :
    (performSyncModel c2row0 3 c2store 100 200 (.error "embed boom")).1.status = "success" ∧
    (performSyncModel c2row0 3 c2store 100 200 (.error "embed boom")).1.documentsFetched = 3 ∧
    (performSyncModel c2row0 3 c2store 100 200 (.error "embed boom")).2.status = "failed" ∧
    (performSyncModel c2row0 3 c2store 100 200 (.error "embed boom")).2.documentsFetched = 0 ∧
    (performSyncModel c2row0 3 c2store 100 200 (.error "embed boom")).2.lastSyncTimestamp = none ∧
    (performSyncModel c2row0 3 c2store 100 200 (.error "embed boom")).2 ≠
      (performSyncModel c2row0 3 c2store 100 200 (.error "embed boom")).1 := by
  refine ⟨rfl, rfl, rfl, rfl, rfl, ?_⟩
  decide

/-- C2 (corrected): in a run whose embedding phase does not throw, the
success row is terminal — the run performs no further write to it.  But when
storage succeeds and the embedding phase throws, the same row is rewritten by
`fail`: status becomes `failed`, both counts become 0, the cursor becomes
NULL and the error message is stored. -/
theorem c2_synclog_terminality (row0 : SyncLogRow) (fetchedCount : Nat)
    (store : StoreState) (tSuccess tFail : Nat) (embedOutcome : Except String Nat) :
    (performSyncModel row0 fetchedCount store tSuccess tFail embedOutcome).1.status = "success" ∧
    (embedOutcome.isOk = true →
      (performSyncModel row0 fetchedCount store tSuccess tFail embedOutcome).2 =
        (performSyncModel row0 fetchedCount store tSuccess tFail embedOutcome).1) ∧
    (∀ msg, embedOutcome = .error msg →
      (performSyncModel row0 fetchedCount store tSuccess tFail embedOutcome).2 =
        failSyncLog tFail
          (performSyncModel row0 fetchedCount store tSuccess tFail embedOutcome).1 msg ∧
      (performSyncModel row0 fetchedCount store tSuccess tFail embedOutcome).2.status = "failed" ∧
      (performSyncModel row0 fetchedCount store tSuccess tFail embedOutcome).2.documentsFetched = 0 ∧
      (performSyncModel row0 fetchedCount store tSuccess tFail embedOutcome).2.documentsStored = 0 ∧
      (performSyncModel row0 fetchedCount store tSuccess tFail embedOutcome).2.lastSyncTimestamp = none) := by
  refine ⟨?_, ?_, ?_⟩
  · cases embedOutcome <;> rfl
  · intro hok
    cases embedOutcome with
    | ok k => rfl
    | error msg => simp [Except.isOk, Except.toBool] at hok
  · intro msg hmsg
    subst hmsg
    exact ⟨rfl, rfl, rfl, rfl, rfl⟩

/-- Witness for `c2_synclog_terminality`: the successful-embedding case and
the throwing case, both at concrete inputs. -/
theorem c2_synclog_terminality_witness :
    ((Except.ok 3 : Except String Nat).isOk = true ∧
      (performSyncModel c2row0 3 c2store 100 200 (.ok 3)).2 =
        (performSyncModel c2row0 3 c2store 100 200 (.ok 3)).1) ∧
    (performSyncModel c2row0 3 c2store 100 200 (.error "embed boom")).2.status = "failed" :=
  ⟨⟨rfl, (c2_synclog_terminality c2row0 3 c2store 100 200 (.ok 3)).2.1 rfl⟩,
   ((c2_synclog_terminality c2row0 3 c2store 100 200 (.error "embed boom")).2.2
      "embed boom" rfl).2.1⟩

/-! ## 4.A / 4.F Embedding repository and pipeline
(`embeddingRepository.js`, `embeddingPipeline.js`) -/

/-- A `documents` row as seen by the embedding pipeline. -/
structure EmbDoc where
  document_id : String
  content : String
  needs_embedding : Bool
  embedding : Option (List ℚ)
  embedding_tokens : Option Nat
  embedding_model : Option String
deriving Repr, DecidableEq

/-- Models `EmbeddingRepository.getDocumentsNeedingEmbedding(limit)`:
`WHERE needs_embedding = true AND content IS NOT NULL AND content != ''
 ORDER BY created_at ASC LIMIT $1`.  The database list is kept in
`created_at` order, so the query is a filter followed by `take`. -/
def getDocumentsNeedingEmbedding (limit : Nat) (db : List EmbDoc) : List EmbDoc :=
  (db.filter fun d => d.needs_embedding && d.content != "").take limit

/-- One element of the `updates` array passed to `batchUpdateEmbeddings`. -/
structure EmbUpdate where
  documentId : String
  embedding : List ℚ
  tokens : Nat
deriving Repr, DecidableEq

/-- The default `model` argument of `batchUpdateEmbeddings`. -/
def defaultEmbeddingModel : String := "gemini-embedding-001"

/-- One `UPDATE documents SET embedding = $1::vector, ...,
needs_embedding = false, ... WHERE document_id = $4` statement. -/
def applyEmbeddingUpdate (model : String) (db : List EmbDoc) (u : EmbUpdate) : List EmbDoc :=
  db.map fun d =>
    if d.document_id = u.documentId then
      { d with
        embedding := some u.embedding
        embedding_tokens := some u.tokens
        embedding_model := some model
        needs_embedding := false }
    else d

/-- The statement sequence between `BEGIN` and `COMMIT` in
`batchUpdateEmbeddings`; `fails i` says whether the `i`-th statement raises
(e.g. a malformed vector literal).  A raise aborts the remaining statements. -/
def runUpdateStatements (fails : Nat → Bool) (model : String) :
    List EmbUpdate → Nat → List EmbDoc → Option (List EmbDoc)
  | [], _, db => some db
  | u :: rest, i, db =>
    if fails i then none
    else runUpdateStatements fails model rest (i + 1) (applyEmbeddingUpdate model db u)

/-- Models `EmbeddingRepository.batchUpdateEmbeddings`: `BEGIN`, the statement
sequence, then `COMMIT`; on any raise, `ROLLBACK` restores the pre-call
state and the error is re-thrown (first component `false`). -/
def batchUpdateEmbeddings (fails : Nat → Bool) (model : String)
    (updates : List EmbUpdate) (db : List EmbDoc) : Bool × List EmbDoc :=
  match runUpdateStatements fails model updates 0 db with
  | some db' => (true, db')
  | none => (false, db)

/-- A committed statement sequence equals the sequential application of all
updates. -/
theorem runUpdateStatements_eq_foldl (fails : Nat → Bool) (model : String)
    (updates : List EmbUpdate) :
    ∀ (i : Nat) (db db' : List EmbDoc),
      runUpdateStatements fails model updates i db = some db' →
      db' = updates.foldl (applyEmbeddingUpdate model) db := by
  induction updates with
  | nil =>
    intro i db db' h
    simp only [runUpdateStatements, Option.some.injEq] at h
    simp [h.symm]
  | cons u rest ih =>
    intro i db db' h
    simp only [runUpdateStatements] at h
    by_cases hf : fails i = true
    · simp [hf] at h
    · simp only [Bool.not_eq_true] at hf
      simp only [hf, Bool.false_eq_true, if_false] at h
      simpa using ih (i + 1) (applyEmbeddingUpdate model db u) db' h

/-- C8 (confirmed): a chunk of embedding updates is applied atomically —
the call either commits, leaving exactly the state in which every update in
the chunk has been applied in order, or rolls back, leaving the database
unchanged. -/
theorem c8_batch_update_atomic (fails : Nat → Bool) (model : String)
    (updates : List EmbUpdate) (db : List EmbDoc) :
    batchUpdateEmbeddings fails model updates db =
      (true, updates.foldl (applyEmbeddingUpdate model) db) ∨
    batchUpdateEmbeddings fails model updates db = (false, db) := by
  unfold batchUpdateEmbeddings
  cases h : runUpdateStatements fails model updates 0 db with
  | none => exact Or.inr rfl
  | some db' =>
    left
    rw [runUpdateStatements_eq_foldl fails model updates 0 db db' h]

/-! ## 4.F `processAllPendingEmbeddings` (the drain loop) -/

/-- Characters collapsed by `replace(/\s+/g, " ")` (ASCII whitespace). -/
def isJsWhitespace (c : Char) : Bool :=
  c == ' ' || c == '\t' || c == '\n' || c == '\r'

/-- JavaScript `String.prototype.trim`: strip leading and trailing
whitespace (list-based so that it evaluates by reduction). -/
def jsTrim (s : String) : String :=
  String.mk (((s.data.dropWhile isJsWhitespace).reverse.dropWhile isJsWhitespace).reverse)

/-- Models `replace(/\s+/g, " ")`: every maximal whitespace run becomes one space.
The flag records whether the previous character was whitespace. -/
def collapseWsAux : Bool → List Char → List Char
  | _, [] => []
  | prevWs, c :: cs =>
    if isJsWhitespace c then
      if prevWs then collapseWsAux true cs else ' ' :: collapseWsAux true cs
    else c :: collapseWsAux false cs

/-- Whitespace collapsing on strings. -/
def collapseWs (s : String) : String := String.mk (collapseWsAux false s.data)

/-- Models `EmbeddingService.estimateTokens`: `Math.ceil(text.length / 4)`. -/
def estimateTokensService (text : String) : Nat := (text.length + 3) / 4

/-- Models `EmbeddingService.truncateToTokenLimit` with `maxTokens = 2048`,
`maxChars = 2048 * 4`. -/
def truncateToTokenLimitService (text : String) : String :=
  if text.length ≤ 8192 then text else String.mk (text.data.take 8192) ++ "..."

/-- Models `EmbeddingService.isWithinTokenLimit` with `maxTokens = 2048`. -/
def isWithinTokenLimit (text : String) : Bool := estimateTokensService text ≤ 2048

/-- Models `EmbeddingService.prepareText`: trim, collapse whitespace, truncate. -/
def prepareText (text : String) : String :=
  let cleaned := collapseWs (jsTrim text)
  if isWithinTokenLimit cleaned then cleaned else truncateToTokenLimitService cleaned

/-- The `for (i = 0; i < preparedDocs.length; i += batchChunkSize)` slicing:
chunks of `n` in order.  The fuel argument (instantiated with the list
length, enough since every chunk consumes at least one element for `n ≥ 1`)
keeps the recursion structural. -/
def chunksOfAux (n : Nat) : Nat → List α → List (List α)
  | _, [] => []
  | 0, _ => []
  | fuel + 1, l => l.take n :: chunksOfAux n fuel (l.drop n)

/-- Split a list into chunks of `n` elements. -/
def chunksOf (n : Nat) (l : List α) : List (List α) := chunksOfAux n l.length l

/-- One `try { embedBatch; batchUpdateEmbeddings } catch { continue }` chunk
of the drain loop.  `oracle texts` is the combined outcome of the chunk's
`embedBatch` call and its transactional update: `none` when either throws
(the chunk is skipped and the loop continues).  A result list shorter than
the chunk (possible because `embedBatch` silently filters out blank texts)
makes `embeddings[idx]` undefined and the update construction throw, which
the same `catch` absorbs. -/
def processChunk (oracle : List String → Option (List EmbedResult))
    (db : List EmbDoc) (chunk : List EmbDoc) : List EmbDoc :=
  let texts := chunk.map fun d => prepareText d.content
  match oracle texts with
  | some results =>
    if results.length = chunk.length then
      ((chunk.zip results).map fun p =>
          EmbUpdate.mk p.1.document_id p.2.embedding p.2.tokens).foldl
        (applyEmbeddingUpdate defaultEmbeddingModel) db
    else db
  | none => db

/-- One iteration body of the drain loop: the fetched batch is processed in
chunks of 10 (`batchChunkSize`). -/
def processBatch (oracle : List String → Option (List EmbedResult))
    (db : List EmbDoc) (batch : List EmbDoc) : List EmbDoc :=
  (chunksOf 10 batch).foldl (processChunk oracle) db

/-- Models `EmbeddingPipeline.processAllPendingEmbeddings`: `while (true)` fetch up
to 50 (`this.batchSize`) pending documents; stop when the fetch is empty,
else process the batch and loop.  The `while (true)` loop is given explicit
fuel; `none` means the loop has not terminated within `fuel` iterations, so
non-termination of the source loop is `∀ fuel, drainLoop ... = none`. -/
def drainLoop (oracle : List String → Option (List EmbedResult)) :
    Nat → List EmbDoc → Option (List EmbDoc)
  | 0, _ => none
  | fuel + 1, db =>
    let docs := getDocumentsNeedingEmbedding 50 db
    if docs = [] then some db
    else drainLoop oracle fuel (processBatch oracle db docs)

/-- An embedding endpoint (or its transactional update) that fails on every
chunk — e.g. the provider persistently unavailable with a non-rate-limit
error. -/
def failingChunkOracle : List String → Option (List EmbedResult) := fun _ => none

/-- A single pending document. -/
def c1pendingDoc : EmbDoc := ⟨"gmail_m1", "hello", true, none, none, none⟩

/-- A failing chunk leaves the database untouched. -/
theorem processBatch_failing (db batch : List EmbDoc) :
    processBatch failingChunkOracle db batch = db := by
  unfold processBatch
  generalize chunksOf 10 batch = chunks
  induction chunks generalizing db with
  | nil => rfl
  | cons c cs ih => simpa [processChunk, failingChunkOracle] using ih db

/-- With every chunk failing, the same pending document is re-fetched on
every iteration and the loop never exits. -/
theorem drainLoop_failing_none (n : Nat) :
    drainLoop failingChunkOracle n [c1pendingDoc] = none := by
  induction n with
  | zero => rfl
  | succ n ih =>
    have hfetch : getDocumentsNeedingEmbedding 50 [c1pendingDoc] = [c1pendingDoc] := by decide
    simp only [drainLoop, hfetch, processBatch_failing]
    simpa [c1pendingDoc] using ih

/-- C1 counterexample: the drain loop does not terminate on every run — with
one pending document and a persistently failing chunk the loop never
finishes, for any number of iterations. -/
theorem c1_counterexample :
    ¬ ∃ n, (drainLoop failingChunkOracle n [c1pendingDoc]).isSome = true := by
  rintro ⟨n, hn⟩
  rw [drainLoop_failing_none n] at hn
  simp at hn

/-- Embedding coverage invariant: every document with non-empty content that
is no longer flagged carries a vector of the configured dimensionality
(`EMBEDDING_DIMENSIONS`). -/
def coveredInv (dims : Nat) (db : List EmbDoc) : Prop :=
  ∀ d ∈ db, d.content ≠ "" → d.needs_embedding = false →
    ∃ v, d.embedding = some v ∧ v.length = dims

/-- The embedding provider returns vectors of the configured dimensionality
(`outputDimensionality` is passed on every call). -/
def oracleDims (dims : Nat) (oracle : List String → Option (List EmbedResult)) : Prop :=
  ∀ ts rs, oracle ts = some rs → ∀ r ∈ rs, r.embedding.length = dims

/-- One UPDATE statement preserves the coverage invariant when its vector
has the configured dimensionality. -/
theorem applyEmbeddingUpdate_coveredInv (dims : Nat) (model : String)
    (db : List EmbDoc) (u : EmbUpdate) (hu : u.embedding.length = dims)
    (h : coveredInv dims db) : coveredInv dims (applyEmbeddingUpdate model db u) := by
  intro d' hd' hc hn
  simp only [applyEmbeddingUpdate, List.mem_map] at hd'
  obtain ⟨d, hd, heq⟩ := hd'
  by_cases hid : d.document_id = u.documentId
  · rw [if_pos hid] at heq
    exact ⟨u.embedding, by rw [← heq], hu⟩
  · rw [if_neg hid] at heq
    subst heq
    exact h d hd hc hn

/-- Applying a list of dimension-correct updates preserves the invariant. -/
theorem foldl_updates_coveredInv (dims : Nat) (model : String) :
    ∀ (ups : List EmbUpdate) (db : List EmbDoc),
      (∀ u ∈ ups, u.embedding.length = dims) → coveredInv dims db →
      coveredInv dims (ups.foldl (applyEmbeddingUpdate model) db) := by
  intro ups
  induction ups with
  | nil => intro db _ h; simpa using h
  | cons u rest ih =>
    intro db hups h
    simp only [List.foldl_cons]
    exact ih _ (fun u' hu' => hups u' (List.mem_cons_of_mem _ hu'))
      (applyEmbeddingUpdate_coveredInv dims model db u
        (hups u (List.mem_cons_self _ _)) h)

/-- One chunk — whether it commits or is skipped — preserves the invariant. -/
theorem processChunk_coveredInv (dims : Nat)
    (oracle : List String → Option (List EmbedResult)) (db chunk : List EmbDoc)
    (horacle : oracleDims dims oracle) (h : coveredInv dims db) :
    coveredInv dims (processChunk oracle db chunk) := by
  cases ho : oracle (chunk.map fun d => prepareText d.content) with
  | none => simpa only [processChunk, ho] using h
  | some results =>
    by_cases hlen : results.length = chunk.length
    · simp only [processChunk, ho, hlen, if_true]
      refine foldl_updates_coveredInv dims _ _ db ?_ h
      intro u hu
      simp only [List.mem_map] at hu
      obtain ⟨p, hp, rfl⟩ := hu
      exact horacle _ _ ho p.2 (List.of_mem_zip hp).2
    · simpa only [processChunk, ho, hlen, if_false] using h

/-- One drain-loop iteration preserves the invariant. -/
theorem processBatch_coveredInv (dims : Nat)
    (oracle : List String → Option (List EmbedResult)) (db batch : List EmbDoc)
    (horacle : oracleDims dims oracle) (h : coveredInv dims db) :
    coveredInv dims (processBatch oracle db batch) := by
  unfold processBatch
  generalize chunksOf 10 batch = chunks
  induction chunks generalizing db with
  | nil => exact h
  | cons c cs ih =>
    simp only [List.foldl_cons]
    exact ih _ (processChunk_coveredInv dims oracle db c horacle h)

/-- When the fetch comes back empty, no document with non-empty content is
still flagged. -/
theorem fetch_empty_needs (db : List EmbDoc)
    (h : getDocumentsNeedingEmbedding 50 db = []) :
    ∀ d ∈ db, d.content ≠ "" → d.needs_embedding = false := by
  intro d hd hc
  unfold getDocumentsNeedingEmbedding at h
  rcases List.take_eq_nil_iff.mp h with h' | h'
  · exact absurd h' (by norm_num)
  · have hfd := List.filter_eq_nil_iff.mp h' d hd
    by_contra hne
    apply hfd
    simp only [Bool.and_eq_true, bne_iff_ne, ne_eq]
    refine ⟨?_, hc⟩
    cases hval : d.needs_embedding with
    | false => exact absurd hval hne
    | true => rfl

/-- C1 (corrected): termination of the drain loop is not guaranteed (see the
counterexample); but for every run of the loop that does complete — the
fetch returned empty — every document with non-empty content has
`needs_embedding = false` and, given that on entry every unflagged
non-empty document already carried a vector of the configured
dimensionality and that the provider returns vectors of that
dimensionality, a vector of the configured dimensionality. -/
theorem c1_drain_coverage (dims fuel : Nat)
    (oracle : List String → Option (List EmbedResult)) (db db' : List EmbDoc)
    (hrun : drainLoop oracle fuel db = some db')
    (hinv : coveredInv dims db)
    (horacle : oracleDims dims oracle) :
    ∀ d ∈ db', d.content ≠ "" →
      d.needs_embedding = false ∧ ∃ v, d.embedding = some v ∧ v.length = dims := by
  induction fuel generalizing db with
  | zero => simp [drainLoop] at hrun
  | succ fuel ih =>
    by_cases hempty : getDocumentsNeedingEmbedding 50 db = []
    · simp only [drainLoop, hempty, if_true, Option.some.injEq] at hrun
      subst hrun
      intro d hd hc
      exact ⟨fetch_empty_needs db hempty d hd hc,
             hinv d hd hc (fetch_empty_needs db hempty d hd hc)⟩
    · simp only [drainLoop, hempty, if_false] at hrun
      exact ih _ hrun (processBatch_coveredInv dims oracle db _ horacle hinv)

/-- A healthy provider for the witness: every text gets the vector `[1, 0]`
(dimensionality 2). -/
def c1okOracle : List String → Option (List EmbedResult) :=
  fun ts => some (ts.map fun _ => ⟨[1, 0], 2⟩)

/-- The document of the witness run after embedding. -/
def c1embeddedDoc : EmbDoc :=
  ⟨"gmail_m1", "hello", false, some [1, 0], some 2, some "gemini-embedding-001"⟩

/-- Witness for `c1_drain_coverage`: a two-iteration run that embeds the one
pending document and exits. -/
theorem c1_drain_coverage_witness :
    drainLoop c1okOracle 2 [c1pendingDoc] = some [c1embeddedDoc] ∧
    c1embeddedDoc.content ≠ "" ∧
    c1embeddedDoc.needs_embedding = false ∧
    ∃ v, c1embeddedDoc.embedding = some v ∧ v.length = 2 := by
  have hinv : coveredInv 2 [c1pendingDoc] := by
    intro d hd _ hn
    rw [List.mem_singleton] at hd
    subst hd
    exact absurd hn (by decide)
  have horacle : oracleDims 2 c1okOracle := by
    intro ts rs h r hr
    simp only [c1okOracle, Option.some.injEq] at h
    subst h
    simp only [List.mem_map] at hr
    obtain ⟨t, _, rfl⟩ := hr
    rfl
  have hrun : drainLoop c1okOracle 2 [c1pendingDoc] = some [c1embeddedDoc] := rfl
  refine ⟨hrun, by decide, ?_⟩
  have := c1_drain_coverage 2 2 c1okOracle [c1pendingDoc] [c1embeddedDoc] hrun hinv horacle
    c1embeddedDoc (List.mem_singleton_self _) (by decide)
  exact this

/-! ## 4.D Gmail normalizer (`GmailNormalizer`)

Base64url decoding (`decodeBase64` via `Buffer`), HTML stripping
(`stripHtml`, regex based) and content cleanup (`cleanContent`, regex based)
are pure text-to-text primitives; they are passed in as explicit function
arguments since none of the properties below depend on their output. -/

/-- A Gmail message payload part: `mimeType`, `body.data` (empty string for
an absent body) and the optional nested `parts` array. -/
inductive GmailPayload where
  | mk (mimeType : String) (bodyData : String) (parts : Option (List GmailPayload))

mutual

/-- The `parts.forEach` accumulation of `extractContentFromParts`:
first component `plainText`, second `htmlText`.  `text/plain` bodies and
recursively extracted nested content are appended to `plainText`,
`text/html` bodies to `htmlText`. -/
def partsAccum (decode stripHtml : String → String) :
    List GmailPayload → String × String
  | [] => ("", "")
  | .mk mt bd parts :: rest =>
    let contrib : String × String :=
      if mt = "text/plain" ∧ bd ≠ "" then (decode bd, "")
      else if mt = "text/html" ∧ bd ≠ "" then ("", decode bd)
      else match parts with
        | some ps => (selectParts decode stripHtml ps, "")
        | none => ("", "")
    let acc := partsAccum decode stripHtml rest
    (contrib.1 ++ acc.1, contrib.2 ++ acc.2)

/-- The tail of `extractContentFromParts`: prefer accumulated plain text,
else strip the accumulated HTML, else empty. -/
def selectParts (decode stripHtml : String → String) (ps : List GmailPayload) : String :=
  let acc := partsAccum decode stripHtml ps
  if acc.1 ≠ "" then acc.1 else if acc.2 ≠ "" then stripHtml acc.2 else ""

end

/-- Models `GmailNormalizer.extractContent`: plain-text body, else stripped HTML
body, else recurse into `parts` when present, else empty. -/
def extractContent (decode stripHtml : String → String) : GmailPayload → String
  | .mk mt bd parts =>
    if mt = "text/plain" ∧ bd ≠ "" then decode bd
    else if mt = "text/html" ∧ bd ≠ "" then stripHtml (decode bd)
    else match parts with
      | some ps => selectParts decode stripHtml ps
      | none => ""

/-- One `{name, value}` header of a Gmail message payload. -/
structure GmailHeader where
  name : String
  value : String
deriving Repr, DecidableEq

/-- The result of `GmailNormalizer.extractHeaders` (`from` is a Lean keyword,
hence `fromAddr`). -/
structure ExtractedHeaders where
  fromAddr : Option String
  toAddr : Option String
  subject : Option String
  date : Option String
deriving Repr, DecidableEq

/-- Models `GmailNormalizer.extractHeaders`: `forEach` over the headers, matching
the lower-cased name; a later header of the same name overwrites. -/
def extractHeaders (hs : List GmailHeader) : ExtractedHeaders :=
  hs.foldl
    (fun acc h =>
      let n := asciiLower h.name
      if n = "from" then { acc with fromAddr := some h.value }
      else if n = "to" then { acc with toAddr := some h.value }
      else if n = "subject" then { acc with subject := some h.value }
      else if n = "date" then { acc with date := some h.value }
      else acc)
    ⟨none, none, none, none⟩

/-- A raw Gmail API message as consumed by `normalize`.  `payloadHeaders`
is `rawMessage.payload.headers`; `internalDate` is the upstream epoch
timestamp in milliseconds. -/
structure RawGmailMessage where
  id : String
  threadId : String
  labelIds : List String
  snippet : String
  internalDate : Int
  payloadHeaders : List GmailHeader
  payload : GmailPayload

/-- Models `x || dflt` for a possibly missing, possibly empty string. -/
def jsOrElse (v : Option String) (dflt : String) : String :=
  match v with
  | some s => if s = "" then dflt else s
  | none => dflt

/-- The unified document produced by `GmailNormalizer.normalize`, with the
`metadata.gmail` blob flattened into fields. -/
structure NormalizedGmailDoc where
  documentId : String
  userId : String
  source : String
  type : String
  content : String
  contentLength : Nat
  title : String
  timestamp : Int
  author : Option String
  threadId : String
  labelIds : List String
  snippet : String
  toHeader : Option String
  subjectHeader : Option String
  dateHeader : Option String
deriving Repr, DecidableEq

/-- Models `GmailNormalizer.normalize`: extract headers and content, drop the
record (`null`) when the content is blank, otherwise build the document
with `documentId = "gmail_" + rawMessage.id` and `source = "gmail"`. -/
def GmailNormalizer.normalize (decode stripHtml cleanContent : String → String)
    (msg : RawGmailMessage) (userId : String) : Option NormalizedGmailDoc :=
  let headers := extractHeaders msg.payloadHeaders
  let content := extractContent decode stripHtml msg.payload
  if jsTrim content = "" then none
  else some
    { documentId := "gmail_" ++ msg.id
      userId := userId
      source := "gmail"
      type := "email"
      content := cleanContent content
      contentLength := content.length
      title := jsOrElse headers.subject "(No Subject)"
      timestamp := msg.internalDate
      author := headers.fromAddr
      threadId := msg.threadId
      labelIds := msg.labelIds
      snippet := msg.snippet
      toHeader := headers.toAddr
      subjectHeader := headers.subject
      dateHeader := headers.date }

/-- The upstream message `m1` of scenario S1, with a plain-text body. -/
def c3message : RawGmailMessage :=
  { id := "m1"
    threadId := "t1"
    labelIds := ["INBOX"]
    snippet := "hello"
    internalDate := 1759276800000
    payloadHeaders := [⟨"Subject", "Greetings"⟩, ⟨"From", "a@b.c"⟩]
    payload := .mk "text/plain" "hello world" none }

/-- C3 counterexample: the persisted id for upstream id `m1` is
`gmail_m1`, not `email_m1` — the `<source>` prefix used by the code is
`"gmail"`, not `"email"`. -/
theorem c3_counterexample :
    (GmailNormalizer.normalize id id id c3message "u").map (fun d => d.documentId) = some "gmail_m1" ∧
    (GmailNormalizer.normalize id id id c3message "u").map (fun d => d.documentId) ≠ some "email_m1" := by
  constructor
  · rfl
  · intro h
    simp only [GmailNormalizer.normalize, c3message, extractContent] at h
    revert h
    decide

/-- C3 (corrected): for every upstream record that the normalizer persists,
whatever the text primitives, the resulting `documentId` is
`"gmail_" ++ <upstream id>` and the source is `"gmail"`. -/
theorem c3_document_id (decode stripHtml cleanContent : String → String)
    (msg : RawGmailMessage) (userId : String) (doc : NormalizedGmailDoc)
    (h : GmailNormalizer.normalize decode stripHtml cleanContent msg userId = some doc) :
    doc.documentId = "gmail_" ++ msg.id ∧ doc.source = "gmail" := by
  unfold GmailNormalizer.normalize at h
  by_cases hblank : jsTrim (extractContent decode stripHtml msg.payload) = ""
  · simp [hblank] at h
  · simp only [hblank, if_false, Option.some.injEq] at h
    subst h
    exact ⟨rfl, rfl⟩

/-- The document produced by normalizing the concrete message `m1`. -/
def c3normalizedDoc : NormalizedGmailDoc :=
  { documentId := "gmail_m1", userId := "u", source := "gmail"
    type := "email", content := "hello world", contentLength := 11
    title := "Greetings", timestamp := 1759276800000
    author := some "a@b.c", threadId := "t1", labelIds := ["INBOX"]
    snippet := "hello", toHeader := none
    subjectHeader := some "Greetings", dateHeader := none }

/-- Witness for `c3_document_id` on the concrete message `m1`. -/
theorem c3_document_id_witness :
    GmailNormalizer.normalize id id id c3message "u" = some c3normalizedDoc ∧
    c3normalizedDoc.documentId = "gmail_" ++ c3message.id ∧
    c3normalizedDoc.source = "gmail" :=
  ⟨rfl, (c3_document_id id id id c3message "u" c3normalizedDoc rfl).1,
    (c3_document_id id id id c3message "u" c3normalizedDoc rfl).2⟩

/-! ## 4.J Context formatter budget
(`tokenCounter.js`, `contextFormatter.js`) -/

/-- An entry of the `items` array handed to `fitWithinBudget`. -/
structure BudgetItem where
  text : String
  priority : ℚ
deriving Repr, DecidableEq

/-- Models `tokenCounter.estimateTokens`: `Math.ceil(text.length / 4)`. -/
def estimateTokens (text : String) : Nat := (text.length + 3) / 4

/-- Models `tokenCounter.countTotalTokens`: total estimated tokens of a text list. -/
def countTotalTokens (texts : List String) : Nat := (texts.map estimateTokens).sum

/-- Insertion step of the stable descending sort modelling
`[...items].sort((a, b) => b.priority - a.priority)`: an element is placed
before the first strictly-lower-or-equal priority, keeping the original
relative order of equal priorities. -/
def insertByPriorityDesc (x : BudgetItem) : List BudgetItem → List BudgetItem
  | [] => [x]
  | y :: ys => if x.priority ≥ y.priority then x :: y :: ys else y :: insertByPriorityDesc x ys

/-- Stable sort by priority, higher first. -/
def sortByPriorityDesc : List BudgetItem → List BudgetItem
  | [] => []
  | x :: xs => insertByPriorityDesc x (sortByPriorityDesc xs)

/-- The `for (const item of sorted)` loop of `fitWithinBudget`: take the
item's text when it still fits under the budget, otherwise skip it
(no `break`, no splitting) and keep trying later items. -/
def greedyFit (maxTokens : Nat) : List BudgetItem → Nat → List String
  | [], _ => []
  | it :: rest, total =>
    if total + estimateTokens it.text ≤ maxTokens then
      it.text :: greedyFit maxTokens rest (total + estimateTokens it.text)
    else greedyFit maxTokens rest total

/-- Models `tokenCounter.fitWithinBudget`: sort by priority descending, then fill
greedily. -/
def fitWithinBudget (items : List BudgetItem) (maxTokens : Nat) : List String :=
  greedyFit maxTokens (sortByPriorityDesc items) 0

/-- Models `this.maxContextTokens` of the `ContextFormatter` constructor. -/
def maxContextTokens : Nat := 28000

/-- A ranked document as prepared by `ContextFormatter.format`:
`formattedText` is the rendered text, `priority` the final score. -/
structure ContextDoc where
  documentId : String
  formattedText : String
  priority : ℚ
deriving Repr, DecidableEq

/-- Models `ContextFormatter.selectDocumentsWithinBudget`: build the items, run
`fitWithinBudget`, then map back via
`items.filter(item => selectedTexts.includes(item.text))`. -/
def selectDocumentsWithinBudget (docs : List ContextDoc) (maxTokens : Nat) : List ContextDoc :=
  let items := docs.map fun d => BudgetItem.mk d.formattedText d.priority
  let selectedTexts := fitWithinBudget items maxTokens
  docs.filter fun d => selectedTexts.contains d.formattedText

/-- The greedy loop keeps the running total below the budget. -/
theorem greedyFit_sum_le (maxTokens : Nat) :
    ∀ (l : List BudgetItem) (total : Nat), total ≤ maxTokens →
      total + countTotalTokens (greedyFit maxTokens l total) ≤ maxTokens := by
  intro l
  induction l with
  | nil => intro total h; simpa [greedyFit, countTotalTokens] using h
  | cons it rest ih =>
    intro total h
    by_cases hfit : total + estimateTokens it.text ≤ maxTokens
    · have hrec := ih (total + estimateTokens it.text) hfit
      simp only [greedyFit, if_pos hfit, countTotalTokens, List.map_cons, List.sum_cons] at hrec ⊢
      omega
    · simp only [greedyFit, if_neg hfit]
      exact ih total h

/-- Selected texts form a subsequence of the sorted items' texts: each kept
verbatim, none split. -/
theorem greedyFit_sublist (maxTokens : Nat) :
    ∀ (l : List BudgetItem) (total : Nat),
      List.Sublist (greedyFit maxTokens l total) (l.map fun it => it.text) := by
  intro l
  induction l with
  | nil => intro total; simp [greedyFit]
  | cons it rest ih =>
    intro total
    by_cases hfit : total + estimateTokens it.text ≤ maxTokens
    · simp only [greedyFit, if_pos hfit, List.map_cons]
      exact (ih _).cons₂ it.text
    · simp only [greedyFit, if_neg hfit, List.map_cons]
      exact (ih _).cons it.text

/-- Inserting permutes. -/
theorem insertByPriorityDesc_perm (x : BudgetItem) (l : List BudgetItem) :
    List.Perm (insertByPriorityDesc x l) (x :: l) := by
  induction l with
  | nil => simp [insertByPriorityDesc]
  | cons y ys ih =>
    simp only [insertByPriorityDesc]
    split
    · exact List.Perm.refl _
    · exact (ih.cons y).trans (List.Perm.swap x y ys)

/-- Sorting permutes. -/
theorem sortByPriorityDesc_perm (l : List BudgetItem) :
    List.Perm (sortByPriorityDesc l) l := by
  induction l with
  | nil => simp [sortByPriorityDesc]
  | cons x xs ih =>
    exact (insertByPriorityDesc_perm x (sortByPriorityDesc xs)).trans (ih.cons x)

/-- C9 (corrected): when the rendered texts are pairwise distinct, the
documents selected by the context formatter satisfy the budget — the sum of
their rendered texts' estimated tokens is at most `maxContextTokens`
(28000) — and they form a subsequence of the input documents: a document
that does not fit is skipped whole, never split.  (Without distinctness the
text-to-document mapping can duplicate a selected text, see the
counterexample.) -/
theorem c9_context_budget (docs : List ContextDoc)
    (hnodup : (docs.map fun d => d.formattedText).Nodup) :
    countTotalTokens ((selectDocumentsWithinBudget docs maxContextTokens).map
      fun d => d.formattedText) ≤ maxContextTokens ∧
    List.Sublist (selectDocumentsWithinBudget docs maxContextTokens) docs := by
  have hitems : ((docs.map fun d => BudgetItem.mk d.formattedText d.priority).map
      fun it => it.text) = docs.map fun d => d.formattedText := by
    simp [List.map_map]
  set items := docs.map fun d => BudgetItem.mk d.formattedText d.priority with hitemsdef
  set sel := fitWithinBudget items maxContextTokens with hseldef
  -- the selected texts are drawn from the input texts
  have hselsub : List.Sublist sel ((sortByPriorityDesc items).map fun it => it.text) :=
    greedyFit_sublist maxContextTokens (sortByPriorityDesc items) 0
  have hsortperm : List.Perm ((sortByPriorityDesc items).map fun it => it.text)
      (docs.map fun d => d.formattedText) := by
    rw [← hitems]
    exact (sortByPriorityDesc_perm items).map _
  have hselmem : ∀ t ∈ sel, t ∈ docs.map fun d => d.formattedText := by
    intro t ht
    exact hsortperm.mem_iff.mp (hselsub.subset ht)
  have hselnodup : sel.Nodup :=
    ((List.Perm.nodup_iff hsortperm).mpr hnodup).sublist hselsub
  -- the filter keeps exactly the documents whose text was selected
  have hfiltermap : ((selectDocumentsWithinBudget docs maxContextTokens).map
      fun d => d.formattedText) =
      (docs.map fun d => d.formattedText).filter fun t => sel.contains t := by
    simp only [selectDocumentsWithinBudget]
    rw [List.filter_map]
    rfl
  set filteredTexts := (docs.map fun d => d.formattedText).filter fun t => sel.contains t
    with hftdef
  have hcontains : ∀ (t : String) (l : List String), l.contains t = true ↔ t ∈ l := by
    intro t l
    exact List.elem_iff
  have hftnodup : filteredTexts.Nodup :=
    hnodup.sublist (List.filter_sublist _)
  have hftmem : ∀ t, t ∈ filteredTexts ↔ t ∈ sel := by
    intro t
    constructor
    · intro ht
      exact (hcontains t sel).mp (List.of_mem_filter ht)
    · intro ht
      exact List.mem_filter.mpr ⟨hselmem t ht, (hcontains t sel).mpr ht⟩
  have hperm : List.Perm filteredTexts sel := by
    refine List.Subperm.antisymm ?_ ?_
    · exact hftnodup.subperm (fun t ht => (hftmem t).mp ht)
    · exact hselnodup.subperm (fun t ht => (hftmem t).mpr ht)
  constructor
  · rw [hfiltermap]
    have hsum : countTotalTokens filteredTexts = countTotalTokens sel := by
      unfold countTotalTokens
      exact (hperm.map estimateTokens).sum_eq
    rw [hsum]
    have := greedyFit_sum_le maxContextTokens (sortByPriorityDesc items) 0 (by norm_num)
    simpa [hseldef, fitWithinBudget] using this
  · exact List.filter_sublist docs

/-- Witness for `c9_context_budget`: three documents with distinct rendered
texts, the third too large to fit. -/
theorem c9_context_budget_witness :
    (([⟨"d1", "alpha report", 1⟩, ⟨"d2", "beta", 1/2⟩] : List ContextDoc).map
      fun d => d.formattedText).Nodup ∧
    countTotalTokens ((selectDocumentsWithinBudget
        [⟨"d1", "alpha report", 1⟩, ⟨"d2", "beta", 1/2⟩] maxContextTokens).map
      fun d => d.formattedText) ≤ maxContextTokens :=
  ⟨by decide,
   (c9_context_budget [⟨"d1", "alpha report", 1⟩, ⟨"d2", "beta", 1/2⟩] (by decide)).1⟩

/-- A rendered text of 56004 characters, i.e. 14001 estimated tokens — half
a token over half the context budget. -/
def bigText : String := String.mk (List.replicate 56004 'a')

/-- First document of the duplicate-text scenario. -/
def c9dup1 : ContextDoc := ⟨"d1", bigText, 1⟩

/-- Second document of the duplicate-text scenario: same rendered text,
lower priority. -/
def c9dup2 : ContextDoc := ⟨"d2", bigText, 0⟩

/-- For any two documents sharing one rendered text of 14001 tokens, the
greedy pass selects the text once (a second copy would not fit), but the
text-membership filter maps it back to both documents, whose total is then
28002 tokens. -/
theorem c9dup_select (t d1 d2 : String) (ht : estimateTokens t = 14001) :
    countTotalTokens ((selectDocumentsWithinBudget
        [⟨d1, t, 1⟩, ⟨d2, t, 0⟩] maxContextTokens).map fun d => d.formattedText) = 28002 := by
  have hsort : sortByPriorityDesc [BudgetItem.mk t 1, BudgetItem.mk t 0] =
      [BudgetItem.mk t 1, BudgetItem.mk t 0] := by
    norm_num [sortByPriorityDesc, insertByPriorityDesc]
  have hsel : fitWithinBudget [BudgetItem.mk t 1, BudgetItem.mk t 0] maxContextTokens = [t] := by
    rw [fitWithinBudget, hsort]
    simp only [greedyFit, ht, maxContextTokens]
    norm_num
  have hcontains : [t].contains t = true := by
    rw [List.contains_cons, beq_self_eq_true]
    simp
  have hfilter : selectDocumentsWithinBudget [⟨d1, t, 1⟩, ⟨d2, t, 0⟩] maxContextTokens =
      [⟨d1, t, 1⟩, ⟨d2, t, 0⟩] := by
    simp only [selectDocumentsWithinBudget, List.map_cons, List.map_nil]
    rw [hsel]
    simp only [List.filter, hcontains]
  rw [hfilter]
  simp only [List.map_cons, List.map_nil, countTotalTokens, ht]
  norm_num

/-- C9 counterexample: two documents whose rendered texts are identical
(14001 tokens each) are both returned by `selectDocumentsWithinBudget` —
the selected text matches both documents — and their total of 28002
estimated tokens exceeds `MAX_CONTEXT_TOKENS = 28000`. -/
theorem c9_counterexample :
    countTotalTokens ((selectDocumentsWithinBudget [c9dup1, c9dup2] maxContextTokens).map
      fun d => d.formattedText) = 28002 ∧ maxContextTokens < 28002 := by
  have hlen : bigText.length = 56004 := by
    have h : bigText.length = (List.replicate 56004 'a').length := rfl
    rw [h, List.length_replicate]
  have htok : estimateTokens bigText = 14001 := by
    rw [estimateTokens, hlen]
  constructor
  · simp only [c9dup1, c9dup2]
    exact c9dup_select bigText "d1" "d2" htok
  · norm_num [maxContextTokens]
